import Mathlib

/-!
Verification of the in-memory shell emulator of the Lindroid repository
(src/lib/terminal-commands.ts: FileSystemNode, virtualFS, TerminalEmulator).

The TypeScript code is shallowly embedded as executable Lean definitions.
String primitives of the source (trim, split on whitespace runs, split on a
character, toLowerCase, startsWith, join) are re-implemented here by plain
structural recursion over the character list of a string, so that every
definition evaluates inside the kernel; each such helper notes the JavaScript
primitive it models.

Modeling notes on JavaScript dynamic behavior:
- TerminalEmulator.getNode walks an untyped structure and, after stepping
  into a File node, further path segments would read properties off the file
  object (its name, type and content fields, and inherited Object.prototype
  members). No such property ever carries type "directory", no command can
  place such a segment sequence into the working directory, and the only
  observable consumer of the traversal result beyond the file node itself is
  a null-or-type check that fails either way; property access past a File
  node is therefore modeled as absent (getNodeAux, fileNode case).
- mkdirCommand, touchCommand and rmCommand, when the current working
  directory resolves to a File node rather than a children mapping, would in
  JavaScript read or graft properties on the file object itself; the result
  strings are modeled faithfully, and the grafted-property mutation (which no
  well-formed node can represent) is dropped. These branches are reachable
  only after the working directory has been made dangling.
- Absent JavaScript properties (undefined) read as strings are modeled as
  the empty string where the source only tests truthiness.
-/

namespace Lindroid

/-- One character of the single-quote ASCII codepoint, used to build the
error messages of the source that contain quoted names. -/
def sq : String := String.mk [Char.ofNat 39]

/-- Whitespace test matching the common characters of the JavaScript regexp
class backslash-s (space, tab, newline, carriage return). -/
def isWsChar (c : Char) : Bool :=
  c == ' ' || c == Char.ofNat 9 || c == Char.ofNat 10 || c == Char.ofNat 13

/-- Accumulator-based splitting of a character list into maximal runs of
non-whitespace characters. Models trim followed by split on the regexp of
one-or-more whitespace characters: leading and trailing whitespace produce no
tokens and interior runs are collapsed. -/
def splitWsAux : List Char → List Char → List String
  | [], acc => if acc.isEmpty then [] else [String.mk acc.reverse]
  | c :: cs, acc =>
    if isWsChar c then
      if acc.isEmpty then splitWsAux cs []
      else String.mk acc.reverse :: splitWsAux cs []
    else splitWsAux cs (c :: acc)

/-- Tokenization of TerminalEmulator.executeCommand: the JavaScript
expression input.trim().split(regexp of whitespace runs). On input that is
empty after trimming the JavaScript split returns a list holding one empty
string, which the dispatcher maps to the empty command. -/
def tokenize (input : String) : List String :=
  match splitWsAux input.data [] with
  | [] => [""]
  | l => l

/-- ASCII lowercasing of a string, character by character; models the
JavaScript toLowerCase call used on the command name. -/
def lowerStr (s : String) : String :=
  String.mk (s.data.map Char.toLower)

/-- Prefix test on strings; models the JavaScript startsWith call. -/
def strStartsWith (s pre : String) : Bool :=
  pre.data.isPrefixOf s.data

/-- Suffix test on strings, used to classify error outputs. -/
def strEndsWith (s suf : String) : Bool :=
  suf.data.isSuffixOf s.data

/-- Splitting on a single separator character, keeping empty pieces; models
the JavaScript split call with a one-character separator string. -/
def splitCharAux (sep : Char) : List Char → List Char → List String
  | [], acc => [String.mk acc.reverse]
  | c :: cs, acc =>
    if c == sep then String.mk acc.reverse :: splitCharAux sep cs []
    else splitCharAux sep cs (c :: acc)

/-- Splitting a string on a separator character, keeping empty pieces. -/
def splitChar (sep : Char) (s : String) : List String :=
  splitCharAux sep s.data []

/-- Joining a list of strings with a separator; models the JavaScript
Array.prototype.join call. -/
def joinSep (sep : String) : List String → String
  | [] => ""
  | [x] => x
  | x :: y :: xs => x ++ sep ++ joinSep sep (y :: xs)

/-- FileSystemNode of the source: a tagged union of File (with content) and
Directory (with an insertion-ordered children mapping, represented as an
association list from child name to node). The name field of the source node
object is kept alongside the children key, as the source stores both. -/
inductive FSNode where
  | file (name : String) (content : String)
  | dir (name : String) (children : List (String × FSNode))
deriving Repr

/-- Children mapping of a Directory node or the top-level virtualFS record:
an insertion-ordered association list from name to node. -/
abbrev Children := List (String × FSNode)

/-- Name field of a node. -/
def nodeName : FSNode → String
  | FSNode.file n _ => n
  | FSNode.dir n _ => n

/-- Discriminator test for Directory nodes (the source compares the type
field against the string "directory"). -/
def isDirNode : FSNode → Bool
  | FSNode.dir _ _ => true
  | FSNode.file _ _ => false

/-- Discriminator test for File nodes (the source compares the type field
against the string "file"). -/
def isFileNode : FSNode → Bool
  | FSNode.file _ _ => true
  | FSNode.dir _ _ => false

/-- Property lookup in a children record; models the JavaScript object
indexing current[segment] on a Record of nodes (keys are unique, the first
match is taken). -/
def lookupChild : Children → String → Option FSNode
  | [], _ => none
  | e :: rest, k => if e.1 = k then some e.2 else lookupChild rest k

/-- Children of the home directory lindroid-user in the seeded virtualFS. -/
def homeChildren : Children :=
  [ ("Documents", FSNode.dir "Documents" []),
    ("Downloads", FSNode.dir "Downloads" []),
    ("Pictures", FSNode.dir "Pictures" []),
    ("Videos", FSNode.dir "Videos" []),
    ("Projects", FSNode.dir "Projects" []),
    ("readme.txt", FSNode.file "readme.txt"
      "Welcome to Lindroid!\nThis is a simulated Linux environment."),
    ("script.sh", FSNode.file "script.sh"
      ("#!/bin/bash\necho " ++ sq ++ "Hello from Lindroid!" ++ sq)) ]

/-- The seeded in-memory filesystem virtualFS of the source: the top-level
record is the implicit root. -/
def virtualFS : Children :=
  [ ("home", FSNode.dir "home"
      [ ("lindroid-user", FSNode.dir "lindroid-user" homeChildren) ]) ]

/-- Value category of the untyped traversal variable current of
TerminalEmulator.getNode: either a children record (the source steps into
node.children whenever that property is present) or a File node itself. -/
inductive JsVal where
  | record (r : Children)
  | fileNode (name : String) (content : String)
deriving Repr

/-- The type property read off a getNode result by cdCommand: a children
record carries no type property (modeled as none), a File node carries the
string "file". No value ever produced by getNode carries "directory". -/
def typeOf : JsVal → Option String
  | JsVal.record _ => none
  | JsVal.fileNode _ _ => some "file"

/-- Traversal loop of TerminalEmulator.getNode: starting from a children
record, each segment is looked up; a Directory child replaces current with
its children record, a File child replaces current with the node itself.
Property access on a File node for a further segment is modeled as absent
(see the modeling notes at the top of the file). -/
def getNodeAux : JsVal → List String → Option JsVal
  | v, [] => some v
  | JsVal.record r, s :: rest =>
    match lookupChild r s with
    | none => none
    | some (FSNode.dir _ c) => getNodeAux (JsVal.record c) rest
    | some (FSNode.file n cont) => getNodeAux (JsVal.fileNode n cont) rest
  | JsVal.fileNode _ _, _ :: _ => none

/-- TerminalEmulator.getNode: resolves a segment sequence from the root
record of the given tree. -/
def getNode (fs : Children) (path : List String) : Option JsVal :=
  getNodeAux (JsVal.record fs) path

/-- Functional counterpart of the in-place JavaScript mutation performed on
the children record that getNode reached: applies f to the record at the
given directory path, following the same child-by-name steps as getNode.
Entries that are File nodes are left unchanged (the callers only mutate when
getNode returned a children record, in which case no File node lies on the
path). -/
def updateChildren : List String → (Children → Children) → Children → Children
  | [], f, r => f r
  | s :: rest, f, r =>
    r.map fun e =>
      if e.1 = s then
        match e.2 with
        | FSNode.dir n c => (e.1, FSNode.dir n (updateChildren rest f c))
        | FSNode.file n c => (e.1, FSNode.file n c)
      else e

/-- Per-instance mutable state of TerminalEmulator: the working-directory
segment sequence currentPath, the environment mapping env (insertion
ordered, as JavaScript object keys are), and the filesystem tree the
instance works on (the source shares one process-wide virtualFS; each
embedded state carries its tree). -/
structure EmulatorState where
  currentPath : List String
  env : List (String × String)
  fs : Children
deriving Repr

/-- Construction-time state of a TerminalEmulator instance: working
directory home/lindroid-user, the four seeded environment variables in
declaration order, and the seeded virtualFS tree. -/
def initialState : EmulatorState :=
  { currentPath := ["home", "lindroid-user"],
    env := [("USER", "lindroid-user"),
            ("HOME", "/home/lindroid-user"),
            ("PATH", "/usr/local/bin:/usr/bin:/bin"),
            ("SHELL", "/bin/bash")],
    fs := virtualFS }

/-- Environment variable read; an absent key (JavaScript undefined) is
modeled as the empty string (the source only reads the always-present USER
key this way). -/
def envGet : List (String × String) → String → String
  | [], _ => ""
  | e :: rest, k => if e.1 = k then e.2 else envGet rest k

/-- Environment variable write, modeling JavaScript property assignment on
an object: an existing key keeps its position and receives the new value, a
new key is appended. -/
def envSet : List (String × String) → String → String → List (String × String)
  | [], k, v => [(k, v)]
  | e :: rest, k, v =>
    if e.1 = k then (e.1, v) :: rest else e :: envSet rest k v

/-- TerminalEmulator.getCurrentPath: slash plus the slash-joined segments
(the bare slash at root). -/
def getCurrentPath (st : EmulatorState) : String :=
  "/" ++ joinSep "/" st.currentPath

/-- Static output of TerminalEmulator.helpCommand. -/
def helpText : String :=
  "Available commands:\n  help              - Show this help message\n  clear             - Clear terminal screen\n  echo [text]       - Echo text to output\n  date              - Show current date and time\n  whoami            - Display current user\n  pwd               - Print working directory\n  ls [path]         - List directory contents\n  cd [path]         - Change directory\n  cat [file]        - Display file contents\n  mkdir [name]      - Create directory\n  touch [file]      - Create empty file\n  rm [file]         - Remove file\n  uname [-a]        - Show system information\n  env               - Display environment variables\n  export KEY=VALUE  - Set environment variable\n  history           - Show command history\n\nNote: This is a simulated Linux environment running in-memory."

/-- TerminalEmulator.lsCommand: lists the record the working directory
resolves to, directories first then files, each group in insertion order,
joined by two spaces. An unresolvable working directory yields an error
string; a working directory resolving to a File node yields the empty string
(the field values of the file object carry no type property, so both filters
come back empty). The path argument of the source is ignored, as in the
source. -/
def lsCommand (st : EmulatorState) (_args : List String) : String :=
  match getNode st.fs st.currentPath with
  | none => "ls: cannot access directory"
  | some (JsVal.fileNode _ _) => ""
  | some (JsVal.record r) =>
    let entries := r.map fun e => e.2
    if entries.length = 0 then ""
    else
      joinSep "  "
        ((entries.filter isDirNode).map nodeName ++
         (entries.filter isFileNode).map nodeName)

/-- TerminalEmulator.cdCommand, translated branch by branch: no argument
resets to home/lindroid-user without any existence check; two dots pop one
segment only when more than one segment is present; a bare slash goes to
root; an argument starting with a slash is resolved absolutely and accepted
only when the resolved value carries type "directory" (which no getNode
result does, see typeOf); any other argument is looked up as a single child
of the current record. -/
def cdCommand (st : EmulatorState) (args : List String) : EmulatorState × String :=
  match args with
  | [] => ({ st with currentPath := ["home", "lindroid-user"] }, "")
  | target :: _ =>
    if target = ".." then
      (if st.currentPath.length > 1
        then { st with currentPath := st.currentPath.dropLast }
        else st, "")
    else if target = "/" then
      ({ st with currentPath := [] }, "")
    else if strStartsWith target "/" then
      match getNode st.fs ((splitChar '/' target).filter fun s => s != "") with
      | none => (st, "cd: " ++ target ++ ": No such directory")
      | some node =>
        if typeOf node == some "directory" then
          ({ st with currentPath := (splitChar '/' target).filter fun s => s != "" }, "")
        else (st, "cd: " ++ target ++ ": No such directory")
    else
      match getNode st.fs st.currentPath with
      | none => (st, "cd: " ++ target ++ ": No such directory")
      | some (JsVal.fileNode n c) =>
        if (target == "name" && n != "") || target == "type"
            || (target == "content" && c != "") then
          (st, "cd: " ++ target ++ ": Not a directory")
        else (st, "cd: " ++ target ++ ": No such directory")
      | some (JsVal.record r) =>
        match lookupChild r target with
        | none => (st, "cd: " ++ target ++ ": No such directory")
        | some (FSNode.file _ _) => (st, "cd: " ++ target ++ ": Not a directory")
        | some (FSNode.dir _ _) =>
          ({ st with currentPath := st.currentPath ++ [target] }, "")

/-- TerminalEmulator.catCommand: prints the content of a File child of the
current record; a missing argument, an unresolvable working directory, a
missing child, or a Directory child yield error strings. A working directory
resolving to a File node always yields the not-found error (its field values
carry no type property). -/
def catCommand (st : EmulatorState) (args : List String) : String :=
  match args with
  | [] => "cat: missing file operand"
  | fileName :: _ =>
    match getNode st.fs st.currentPath with
    | none => "cat: " ++ fileName ++ ": No such file"
    | some (JsVal.fileNode _ _) => "cat: " ++ fileName ++ ": No such file"
    | some (JsVal.record r) =>
      match lookupChild r fileName with
      | some (FSNode.file _ content) => content
      | _ => "cat: " ++ fileName ++ ": No such file"

/-- TerminalEmulator.mkdirCommand: inserts an empty Directory node into the
current record when the name is free, appending it (JavaScript adds a new
key at the end). The File-node working-directory branch models the
truthiness of the property read; the grafted-property mutation of that
branch is dropped (see modeling notes). -/
def mkdirCommand (st : EmulatorState) (args : List String) : EmulatorState × String :=
  match args with
  | [] => (st, "mkdir: missing operand")
  | dirName :: _ =>
    match getNode st.fs st.currentPath with
    | none => (st, "mkdir: cannot create directory")
    | some (JsVal.fileNode n c) =>
      if (dirName == "name" && n != "") || dirName == "type"
          || (dirName == "content" && c != "") then
        (st, "mkdir: cannot create directory " ++ sq ++ dirName ++ sq
          ++ ": File exists")
      else (st, "")
    | some (JsVal.record r) =>
      match lookupChild r dirName with
      | some _ =>
        (st, "mkdir: cannot create directory " ++ sq ++ dirName ++ sq
          ++ ": File exists")
      | none =>
        ({ st with fs := updateChildren st.currentPath (fun cs => cs ++ [(dirName, FSNode.dir dirName [])]) st.fs }, "")

/-- TerminalEmulator.touchCommand: inserts an empty File node when the name
is free, and leaves an existing node of either kind untouched; always
returns the empty string once the working directory resolved. The File-node
working-directory branch returns the empty string in the source on both
property outcomes; the grafted-property mutation is dropped (see modeling
notes). -/
def touchCommand (st : EmulatorState) (args : List String) : EmulatorState × String :=
  match args with
  | [] => (st, "touch: missing file operand")
  | fileName :: _ =>
    match getNode st.fs st.currentPath with
    | none => (st, "touch: cannot create file")
    | some (JsVal.fileNode _ _) => (st, "")
    | some (JsVal.record r) =>
      match lookupChild r fileName with
      | some _ => (st, "")
      | none =>
        ({ st with fs := updateChildren st.currentPath (fun cs => cs ++ [(fileName, FSNode.file fileName "")]) st.fs }, "")

/-- TerminalEmulator.rmCommand: deletes the named child of the current
record, of either kind, whole-subtree. The File-node working-directory
branch models the truthiness of the property read; the own-field deletion of
that branch is dropped (see modeling notes). -/
def rmCommand (st : EmulatorState) (args : List String) : EmulatorState × String :=
  match args with
  | [] => (st, "rm: missing operand")
  | fileName :: _ =>
    match getNode st.fs st.currentPath with
    | none => (st, "rm: cannot remove " ++ sq ++ fileName ++ sq ++ ": No such file")
    | some (JsVal.fileNode n c) =>
      if (fileName == "name" && n != "") || fileName == "type"
          || (fileName == "content" && c != "") then
        (st, "")
      else (st, "rm: cannot remove " ++ sq ++ fileName ++ sq ++ ": No such file")
    | some (JsVal.record r) =>
      match lookupChild r fileName with
      | none => (st, "rm: cannot remove " ++ sq ++ fileName ++ sq ++ ": No such file")
      | some _ =>
        ({ st with fs := updateChildren st.currentPath (fun cs => cs.filter fun e => e.1 != fileName) st.fs }, "")

/-- TerminalEmulator.unameCommand. -/
def unameCommand (args : List String) : String :=
  if args.contains "-a" then "Linux lindroid 5.15.0-android aarch64 GNU/Linux"
  else "Linux"

/-- First component of the split of an export token on the equals sign;
models the JavaScript array destructuring of assignment.split. -/
def exportKey (assignment : String) : String :=
  ((splitChar '=' assignment).headD "")

/-- Second component of the split of an export token on the equals sign;
the JavaScript destructuring yields undefined when no equals sign is
present, modeled as the empty string (both fail the truthiness test). -/
def exportVal (assignment : String) : String :=
  (((splitChar '=' assignment).drop 1).headD "")

/-- Removal of every single-quote and double-quote character; models the
JavaScript replace call with a global quote-class regexp. -/
def stripQuotes (s : String) : String :=
  String.mk (s.data.filter fun c => c != Char.ofNat 39 && c != Char.ofNat 34)

/-- TerminalEmulator.exportCommand: with no argument, prints every variable
as an export line with the value in double quotes; with an argument, splits
it on the equals sign, rejects an empty first or second component, and
otherwise assigns the key to the second component with every quote character
removed. -/
def exportCommand (st : EmulatorState) (args : List String) : EmulatorState × String :=
  match args with
  | [] =>
    (st, joinSep "\n"
      (st.env.map fun p => "export " ++ p.1 ++ "=\"" ++ p.2 ++ "\""))
  | assignment :: _ =>
    if exportKey assignment = "" ∨ exportVal assignment = "" then
      (st, "export: invalid syntax")
    else
      ({ st with env := envSet st.env (exportKey assignment) (stripQuotes (exportVal assignment)) }, "")

/-- Switch statement of TerminalEmulator.executeCommand, taking the already
lowercased command name and the argument list. -/
def dispatch (now : String) (st : EmulatorState) (command : String)
    (args : List String) : EmulatorState × String :=
  match command with
  | "help" => (st, helpText)
  | "clear" => (st, "__CLEAR__")
  | "echo" => (st, joinSep " " args)
  | "date" => (st, now)
  | "whoami" => (st, envGet st.env "USER")
  | "pwd" => (st, getCurrentPath st)
  | "ls" => (st, lsCommand st args)
  | "cd" => cdCommand st args
  | "cat" => (st, catCommand st args)
  | "mkdir" => mkdirCommand st args
  | "touch" => touchCommand st args
  | "rm" => rmCommand st args
  | "uname" => (st, unameCommand args)
  | "env" => (st, joinSep "\n" (st.env.map fun p => p.1 ++ "=" ++ p.2))
  | "export" => exportCommand st args
  | "history" => (st, "Command history feature - use up/down arrows")
  | "" => (st, "")
  | _ => (st, "bash: " ++ command ++ ": command not found\nType " ++ sq
      ++ "help" ++ sq ++ " for available commands.")

/-- TerminalEmulator.executeCommand: tokenizes the raw input, lowercases the
command name and dispatches. The date output of the source is the ambient
current time, passed in here as the now argument; no command reads it
otherwise. The returned pair is the post-call state and the output string. -/
def executeCommand (now : String) (st : EmulatorState) (input : String) :
    EmulatorState × String :=
  dispatch now st (lowerStr ((tokenize input).headD "")) (tokenize input).tail

/-- Sequential execution of a list of command strings on one emulator
instance, returning the final state. -/
def runCommands (now : String) (st : EmulatorState) : List String → EmulatorState
  | [] => st
  | c :: rest => runCommands now (executeCommand now st c).1 rest

/-- The working directory resolves from root to an existing Directory: the
getNode traversal ends on a children record (the root record when the path
is empty). -/
def pathIsDir (fs : Children) (p : List String) : Bool :=
  match getNode fs p with
  | some (JsVal.record _) => true
  | _ => false

/-- The name x is an existing Directory child of the record the path
resolves to. -/
def childIsDir (fs : Children) (p : List String) (x : String) : Bool :=
  match getNode fs p with
  | some (JsVal.record r) =>
    match lookupChild r x with
    | some (FSNode.dir _ _) => true
    | _ => false
  | _ => false

/-- Classifier for the error outputs of the dispatcher, covering the
taxonomy of the specification: missing operand, not found, not a directory
or no such directory, already exists, invalid syntax, unknown command. Every
string it accepts is nonempty. -/
def isErrorOutput (s : String) : Bool :=
  strEndsWith s "missing operand" || strEndsWith s "missing file operand" ||
  strEndsWith s "No such file" || strEndsWith s "No such directory" ||
  strEndsWith s "Not a directory" || strEndsWith s "File exists" ||
  s == "export: invalid syntax" || strStartsWith s "bash: "

/-- Byte-wise lexicographic comparison of character lists, used by the
spec-side listing order. -/
def charListLe : List Char → List Char → Bool
  | [], _ => true
  | _ :: _, [] => false
  | a :: as, b :: bs =>
    if a.toNat < b.toNat then true
    else if b.toNat < a.toNat then false
    else charListLe as bs

/-- Insertion into a lexicographically sorted list of strings. -/
def insertSorted (x : String) : List String → List String
  | [] => [x]
  | y :: ys => if charListLe x.data y.data then x :: y :: ys else y :: insertSorted x ys

/-- Lexicographic insertion sort on strings. -/
def sortStrings : List String → List String
  | [] => []
  | x :: xs => insertSorted x (sortStrings xs)

/-- Modelled from the spec: the listing format the ls row of the command
table claims — names of the children of the current directory, directories
first then files, each group lexicographically sorted, space-joined. Used
only to compare the claimed format against the behavior of the source. -/
def lsSpecOutput (r : Children) : String :=
  joinSep " "
    (sortStrings (((r.map fun e => e.2).filter isDirNode).map nodeName) ++
     sortStrings (((r.map fun e => e.2).filter isFileNode).map nodeName))

/-- Quote character test: single quote or double quote. -/
def isQuoteChar (c : Char) : Bool := c == Char.ofNat 39 || c == Char.ofNat 34

/-- Modelled from the spec: stripping one surrounding pair of quote
characters from a value, per the export row wording (surrounding quote
characters stripped). Used only to compare the claimed behavior against the
global quote removal of the source. -/
def stripSurroundingQuotes (s : String) : String :=
  if 2 ≤ s.data.length ∧ isQuoteChar (s.data.headD ' ') = true
      ∧ isQuoteChar (s.data.getLastD ' ') = true
  then String.mk ((s.data.drop 1).dropLast)
  else s

/-! Unfolding equations of the getNode traversal, stated once and proved by
reflexivity so later proofs can rewrite with them. -/

theorem getNodeAux_nil (v : JsVal) : getNodeAux v [] = some v := by
  cases v <;> rfl

theorem getNodeAux_record_cons (r : Children) (s : String) (rest : List String) :
    getNodeAux (JsVal.record r) (s :: rest) =
      match lookupChild r s with
      | none => none
      | some (FSNode.dir _ c) => getNodeAux (JsVal.record c) rest
      | some (FSNode.file n cont) => getNodeAux (JsVal.fileNode n cont) rest := rfl

theorem getNodeAux_file_cons (n c : String) (s : String) (rest : List String) :
    getNodeAux (JsVal.fileNode n c) (s :: rest) = none := rfl

/-- A traversal that stepped into a File node never produces a children
record: with no segments left it returns the file node, with segments left
it returns nothing. -/
theorem getNodeAux_file_ne_record (n c : String) (l : List String) (r : Children) :
    getNodeAux (JsVal.fileNode n c) l ≠ some (JsVal.record r) := by
  cases l with
  | nil => rw [getNodeAux_nil]; intro h; cases h
  | cons s rest => rw [getNodeAux_file_cons]; intro h; cases h

/-- Composition of the traversal over an appended path: once a prefix
resolves, the traversal of the concatenation continues from its result. -/
theorem getNodeAux_append (p : List String) (v v' : JsVal)
    (h : getNodeAux v p = some v') (q : List String) :
    getNodeAux v (p ++ q) = getNodeAux v' q := by
  induction p generalizing v with
  | nil =>
    rw [getNodeAux_nil] at h
    cases h
    rfl
  | cons s p' ih =>
    cases v with
    | fileNode n c => rw [getNodeAux_file_cons] at h; cases h
    | record r =>
      rw [List.cons_append]
      rw [getNodeAux_record_cons] at h
      rw [getNodeAux_record_cons]
      cases hl : lookupChild r s with
      | none => rw [hl] at h; simp at h
      | some nd =>
        rw [hl] at h
        cases nd with
        | dir n c => exact ih _ h
        | file n c => exact ih _ h

/-- If a path extended by one segment resolves to a children record, the
path itself already resolves to a children record. -/
theorem getNodeAux_concat_record (p : List String) (x : String) (v : JsVal)
    (r : Children) (h : getNodeAux v (p ++ [x]) = some (JsVal.record r)) :
    ∃ r0, getNodeAux v p = some (JsVal.record r0) := by
  induction p generalizing v with
  | nil =>
    cases v with
    | record r0 => exact ⟨r0, rfl⟩
    | fileNode n c =>
      rw [List.nil_append, getNodeAux_file_cons] at h; cases h
  | cons s p' ih =>
    cases v with
    | fileNode n c => rw [List.cons_append, getNodeAux_file_cons] at h; cases h
    | record r0 =>
      rw [List.cons_append, getNodeAux_record_cons] at h
      rw [getNodeAux_record_cons]
      cases hl : lookupChild r0 s with
      | none => rw [hl] at h; simp at h
      | some nd =>
        rw [hl] at h
        cases nd with
        | dir n c => exact ih _ h
        | file n c => exact ih _ h

/-- Characterization of pathIsDir through getNode. -/
theorem pathIsDir_iff_exists (fs : Children) (p : List String) :
    pathIsDir fs p = true ↔ ∃ r, getNode fs p = some (JsVal.record r) := by
  unfold pathIsDir
  cases h : getNode fs p with
  | none => simp
  | some v =>
    cases v with
    | record r => simp
    | fileNode n c => simp

/-- The empty path always resolves to the root record. -/
theorem pathIsDir_nil (fs : Children) : pathIsDir fs [] = true := rfl

/-- Dropping the last segment of a directory-resolving path keeps it
directory-resolving. -/
theorem pathIsDir_dropLast (fs : Children) (p : List String)
    (h : pathIsDir fs p = true) : pathIsDir fs p.dropLast = true := by
  rcases List.eq_nil_or_concat p with hnil | ⟨q, x, hqx⟩
  · subst hnil; exact pathIsDir_nil fs
  · rw [List.concat_eq_append] at hqx
    subst hqx
    rw [List.dropLast_concat]
    rw [pathIsDir_iff_exists] at h ⊢
    obtain ⟨r, hr⟩ := h
    exact getNodeAux_concat_record q x _ r hr

/-- Extending a directory-resolving path by an existing Directory child
resolves to the children record of that child. -/
theorem getNode_append_child (fs : Children) (p : List String) (r : Children)
    (h : getNode fs p = some (JsVal.record r)) (x n : String) (c : Children)
    (hc : lookupChild r x = some (FSNode.dir n c)) :
    getNode fs (p ++ [x]) = some (JsVal.record c) := by
  unfold getNode at h ⊢
  rw [getNodeAux_append p _ _ h [x], getNodeAux_record_cons, hc]
  rfl

/-- Characterization of childIsDir through getNode and lookupChild. -/
theorem childIsDir_iff (fs : Children) (p : List String) (x : String) :
    childIsDir fs p x = true ↔
      ∃ r n c, getNode fs p = some (JsVal.record r)
        ∧ lookupChild r x = some (FSNode.dir n c) := by
  unfold childIsDir
  cases hg : getNode fs p with
  | none => simp
  | some v =>
    cases v with
    | fileNode n c => simp
    | record r =>
      cases hl : lookupChild r x with
      | none => simp [hl]
      | some nd =>
        cases nd with
        | file n c => simp [hl]
        | dir n c =>
          constructor
          · intro _
            exact ⟨r, n, c, rfl, hl⟩
          · intro _
            simp [hl]

/-- No getNode result carries the type "directory": a children record has no
type property and a File node carries "file". This is the reason the
absolute branch of cdCommand can never succeed. -/
theorem typeOf_ne_directory (v : JsVal) : (typeOf v == some "directory") = false := by
  cases v with
  | record r => rfl
  | fileNode n c => rfl

/-! Lemmas about the functional update of a children record at a path. -/

/-- Lookup of the updated key after one update step: the entry keeps its
position and, when it is a Directory, its children are updated recursively. -/
theorem lookupChild_update_self (r : Children) (s : String) (rest : List String)
    (f : Children → Children) :
    lookupChild (updateChildren (s :: rest) f r) s =
      match lookupChild r s with
      | none => none
      | some (FSNode.dir n c) => some (FSNode.dir n (updateChildren rest f c))
      | some (FSNode.file n c) => some (FSNode.file n c) := by
  induction r with
  | nil => rfl
  | cons e r' ih =>
    obtain ⟨k, nd⟩ := e
    show lookupChild ((if k = s then _ else (k, nd)) :: List.map _ r') s = _
    by_cases he : k = s
    · subst he
      cases nd with
      | dir n c => simp [lookupChild]
      | file n c => simp [lookupChild]
    · cases nd with
      | dir n c =>
        simp only [if_neg he, lookupChild, if_neg (fun h => he h)]
        exact ih
      | file n c =>
        simp only [if_neg he, lookupChild, if_neg (fun h => he h)]
        exact ih

/-- Updating at a path that resolves to a children record: the same path in
the updated tree resolves to the transformed record. -/
theorem getNode_updateChildren (p : List String) (fs r : Children)
    (f : Children → Children) (h : getNode fs p = some (JsVal.record r)) :
    getNode (updateChildren p f fs) p = some (JsVal.record (f r)) := by
  induction p generalizing fs with
  | nil =>
    unfold getNode at h ⊢
    rw [getNodeAux_nil] at h
    simp only [Option.some.injEq, JsVal.record.injEq] at h
    subst h
    rfl
  | cons s p' ih =>
    unfold getNode at h ⊢
    rw [getNodeAux_record_cons] at h
    rw [getNodeAux_record_cons, lookupChild_update_self]
    cases hl : lookupChild fs s with
    | none => rw [hl] at h; simp at h
    | some nd =>
      rw [hl] at h
      cases nd with
      | file n c => exact absurd h (getNodeAux_file_ne_record n c p' r)
      | dir n c => exact ih c h

/-- Updating the record at a directory-resolving path keeps the path
directory-resolving. -/
theorem pathIsDir_update (fs : Children) (p : List String)
    (f : Children → Children) (h : pathIsDir fs p = true) :
    pathIsDir (updateChildren p f fs) p = true := by
  rw [pathIsDir_iff_exists] at h ⊢
  obtain ⟨r, hr⟩ := h
  exact ⟨f r, getNode_updateChildren p fs r f hr⟩

/-- Appending a fresh key to a children record makes it found by lookup. -/
theorem lookupChild_append_none (r : Children) (k : String) (nd : FSNode)
    (h : lookupChild r k = none) : lookupChild (r ++ [(k, nd)]) k = some nd := by
  induction r with
  | nil => simp [lookupChild]
  | cons e r' ih =>
    rw [List.cons_append]
    unfold lookupChild at h ⊢
    by_cases he : e.1 = k
    · rw [if_pos he] at h; cases h
    · rw [if_neg he] at h ⊢
      exact ih h

/-- The line of a freshly set environment variable appears among the lines
the env command prints. -/
theorem envSet_line_mem (env : List (String × String)) (k v : String) :
    (k ++ "=" ++ v) ∈ (envSet env k v).map (fun p => p.1 ++ "=" ++ p.2) := by
  induction env with
  | nil => simp [envSet]
  | cons e rest ih =>
    unfold envSet
    by_cases he : e.1 = k
    · subst he
      simp [List.mem_map]
    · rw [if_neg he, List.map_cons, List.mem_cons]
      exact Or.inr ih

/-- Splitting an all-whitespace character list yields no tokens. -/
theorem splitWsAux_all_ws (l : List Char) (h : l.all isWsChar = true) :
    splitWsAux l [] = [] := by
  induction l with
  | nil => rfl
  | cons c cs ih =>
    rw [List.all_cons, Bool.and_eq_true] at h
    unfold splitWsAux
    rw [if_pos h.1]
    exact ih h.2

/-! Every command handler either leaves the state untouched or returns the
empty string: all state mutation in the source happens on silently succeeding
calls, so any call with nonempty output left the state as it was. -/

theorem cdCommand_fst_or_snd (st : EmulatorState) (args : List String) :
    (cdCommand st args).1 = st ∨ (cdCommand st args).2 = "" := by
  unfold cdCommand
  cases args with
  | nil => exact Or.inr rfl
  | cons t rest =>
    repeat' split
    all_goals first | exact Or.inl rfl | exact Or.inr rfl

theorem mkdirCommand_fst_or_snd (st : EmulatorState) (args : List String) :
    (mkdirCommand st args).1 = st ∨ (mkdirCommand st args).2 = "" := by
  unfold mkdirCommand
  cases args with
  | nil => exact Or.inl rfl
  | cons d rest =>
    repeat' split
    all_goals first | exact Or.inl rfl | exact Or.inr rfl

theorem touchCommand_fst_or_snd (st : EmulatorState) (args : List String) :
    (touchCommand st args).1 = st ∨ (touchCommand st args).2 = "" := by
  unfold touchCommand
  cases args with
  | nil => exact Or.inl rfl
  | cons f rest =>
    repeat' split
    all_goals first | exact Or.inl rfl | exact Or.inr rfl

theorem rmCommand_fst_or_snd (st : EmulatorState) (args : List String) :
    (rmCommand st args).1 = st ∨ (rmCommand st args).2 = "" := by
  unfold rmCommand
  cases args with
  | nil => exact Or.inl rfl
  | cons f rest =>
    repeat' split
    all_goals first | exact Or.inl rfl | exact Or.inr rfl

theorem exportCommand_fst_or_snd (st : EmulatorState) (args : List String) :
    (exportCommand st args).1 = st ∨ (exportCommand st args).2 = "" := by
  unfold exportCommand
  cases args with
  | nil => exact Or.inl rfl
  | cons a rest =>
    repeat' split
    all_goals first | exact Or.inl rfl | exact Or.inr rfl

theorem dispatch_fst_or_snd (now : String) (st : EmulatorState) (cmd : String)
    (args : List String) :
    (dispatch now st cmd args).1 = st ∨ (dispatch now st cmd args).2 = "" := by
  unfold dispatch
  split
  all_goals first
    | exact Or.inl rfl
    | exact Or.inr rfl
    | exact cdCommand_fst_or_snd st args
    | exact mkdirCommand_fst_or_snd st args
    | exact touchCommand_fst_or_snd st args
    | exact rmCommand_fst_or_snd st args
    | exact exportCommand_fst_or_snd st args

theorem executeCommand_fst_or_snd (now : String) (st : EmulatorState) (input : String) :
    (executeCommand now st input).1 = st ∨ (executeCommand now st input).2 = "" := by
  unfold executeCommand
  exact dispatch_fst_or_snd now st _ _

/-! Preservation of a directory-resolving working directory. The one command
that needs the existence of home/lindroid-user is cd with no argument, which
resets to that path without checking it. -/

/-- The working directory stays directory-resolving when cd steps into an
existing Directory child of the current record. -/
theorem cd_rel_dir_leaf (st : EmulatorState) (tgt : String) (r : Children)
    (n : String) (c : Children)
    (hg : getNode st.fs st.currentPath = some (JsVal.record r))
    (hc : lookupChild r tgt = some (FSNode.dir n c)) :
    pathIsDir st.fs (st.currentPath ++ [tgt]) = true := by
  rw [pathIsDir_iff_exists]
  exact ⟨c, getNode_append_child st.fs st.currentPath r hg tgt n c hc⟩

theorem cdCommand_preserves (st : EmulatorState) (args : List String)
    (hwd : pathIsDir st.fs st.currentPath = true)
    (hhome : pathIsDir st.fs ["home", "lindroid-user"] = true) :
    pathIsDir (cdCommand st args).1.fs (cdCommand st args).1.currentPath = true := by
  cases args with
  | nil => exact hhome
  | cons t rest =>
    unfold cdCommand
    repeat' split
    all_goals first
      | exact hwd
      | exact pathIsDir_dropLast st.fs st.currentPath hwd
      | exact pathIsDir_nil st.fs
      | (simp_all [typeOf_ne_directory]
         done)
      | exact cd_rel_dir_leaf st _ _ _ _ (by assumption) (by assumption)

theorem mkdirCommand_preserves (st : EmulatorState) (args : List String)
    (hwd : pathIsDir st.fs st.currentPath = true) :
    pathIsDir (mkdirCommand st args).1.fs (mkdirCommand st args).1.currentPath = true := by
  cases args with
  | nil => exact hwd
  | cons d rest =>
    unfold mkdirCommand
    repeat' split
    all_goals first
      | exact hwd
      | exact pathIsDir_update st.fs st.currentPath _ hwd

theorem touchCommand_preserves (st : EmulatorState) (args : List String)
    (hwd : pathIsDir st.fs st.currentPath = true) :
    pathIsDir (touchCommand st args).1.fs (touchCommand st args).1.currentPath = true := by
  cases args with
  | nil => exact hwd
  | cons f rest =>
    unfold touchCommand
    repeat' split
    all_goals first
      | exact hwd
      | exact pathIsDir_update st.fs st.currentPath _ hwd

theorem rmCommand_preserves (st : EmulatorState) (args : List String)
    (hwd : pathIsDir st.fs st.currentPath = true) :
    pathIsDir (rmCommand st args).1.fs (rmCommand st args).1.currentPath = true := by
  cases args with
  | nil => exact hwd
  | cons f rest =>
    unfold rmCommand
    repeat' split
    all_goals first
      | exact hwd
      | exact pathIsDir_update st.fs st.currentPath _ hwd

theorem exportCommand_preserves (st : EmulatorState) (args : List String)
    (hwd : pathIsDir st.fs st.currentPath = true) :
    pathIsDir (exportCommand st args).1.fs (exportCommand st args).1.currentPath = true := by
  cases args with
  | nil => exact hwd
  | cons a rest =>
    unfold exportCommand
    repeat' split
    all_goals exact hwd

theorem dispatch_preserves (now : String) (st : EmulatorState) (cmd : String)
    (args : List String) (hwd : pathIsDir st.fs st.currentPath = true)
    (hhome : pathIsDir st.fs ["home", "lindroid-user"] = true) :
    pathIsDir (dispatch now st cmd args).1.fs (dispatch now st cmd args).1.currentPath
      = true := by
  unfold dispatch
  split
  all_goals first
    | exact hwd
    | exact cdCommand_preserves st args hwd hhome
    | exact mkdirCommand_preserves st args hwd
    | exact touchCommand_preserves st args hwd
    | exact rmCommand_preserves st args hwd
    | exact exportCommand_preserves st args hwd

/-- Closed form of the two-dots branch of cdCommand: one segment is popped
exactly when more than one segment is present, and the output is always the
empty string. -/
theorem cdCommand_dotdot (st : EmulatorState) :
    cdCommand st [".."] =
      (if st.currentPath.length > 1
        then { st with currentPath := st.currentPath.dropLast } else st, "") := by
  simp only [cdCommand]
  rw [if_pos trivial]

/-- C1 counterexample: the invariant fails on the run cd dot-dot, rm
lindroid-user, cd — the final cd resets the working directory to
home/lindroid-user without checking existence, although that directory was
just removed, so the working directory no longer resolves. -/
theorem c1_counterexample :
    (runCommands "" initialState ["cd ..", "rm lindroid-user", "cd"]).currentPath
      = ["home", "lindroid-user"] ∧
    pathIsDir (runCommands "" initialState ["cd ..", "rm lindroid-user", "cd"]).fs
      (runCommands "" initialState ["cd ..", "rm lindroid-user", "cd"]).currentPath
      = false :=
  ⟨by decide, by decide⟩

/-- C1 (amended): every executeCommand call made from a state whose working
directory resolves to a Directory, and whose tree still holds
home/lindroid-user as a directory, leaves the working directory resolving to
a Directory. The home hypothesis is forced by cd with no arguments, which
resets to home/lindroid-user without any existence check. -/
theorem c1_wd_preserved (now : String) (st : EmulatorState) (input : String)
    (hwd : pathIsDir st.fs st.currentPath = true)
    (hhome : pathIsDir st.fs ["home", "lindroid-user"] = true) :
    pathIsDir (executeCommand now st input).1.fs
      (executeCommand now st input).1.currentPath = true := by
  unfold executeCommand
  exact dispatch_preserves now st _ _ hwd hhome

/-- Witness for c1_wd_preserved at a concrete mutating call. -/
theorem c1_wd_preserved_witness :
    pathIsDir (executeCommand "" initialState "mkdir proj").1.fs
      (executeCommand "" initialState "mkdir proj").1.currentPath = true :=
  c1_wd_preserved "" initialState "mkdir proj" (by decide) (by decide)

/-- C2: the absolute branch of cdCommand can never succeed, because getNode
returns the children mapping for a directory path and that mapping has no
type field, so the comparison against "directory" always fails: every cd
argument that starts with a slash, other than the bare slash, returns the
No-such-directory error and leaves the state unchanged, even when the path
resolves to an existing Directory. -/
theorem c2_absolute_cd_always_fails (st : EmulatorState) (target : String)
    (h1 : strStartsWith target "/" = true) (h2 : target ≠ "/") :
    cdCommand st [target] = (st, "cd: " ++ target ++ ": No such directory") := by
  have hx : target ≠ ".." := by
    intro he; subst he; exact absurd h1 (by decide)
  simp only [cdCommand]
  rw [if_neg hx, if_neg h2, if_pos h1]
  split
  · rfl
  · split
    · simp_all [typeOf_ne_directory]
    · rfl

/-- Witness for c2_absolute_cd_always_fails at cd /home on the fresh state,
together with the fact that /home does resolve to an existing Directory. -/
theorem c2_absolute_cd_always_fails_witness :
    pathIsDir initialState.fs ["home"] = true ∧
    cdCommand initialState ["/home"] = (initialState, "cd: /home: No such directory") :=
  ⟨by decide, c2_absolute_cd_always_fails initialState "/home" (by decide) (by decide)⟩

/-- C3 counterexample: at root (a reachable state) the round trip fails;
home is an existing child Directory of root, yet cd home followed by cd
dot-dot leaves the working directory at home rather than back at root,
because the pop only happens when more than one segment is present. -/
theorem c3_counterexample :
    (runCommands "" initialState ["cd /"]).currentPath = [] ∧
    childIsDir (runCommands "" initialState ["cd /"]).fs
      (runCommands "" initialState ["cd /"]).currentPath "home" = true ∧
    (runCommands "" initialState ["cd /", "cd home", "cd .."]).currentPath = ["home"] :=
  ⟨by decide, by decide, by decide⟩

/-- C3 (amended): for every state whose working directory is nonempty and
every existing child Directory name x of the current record — other than the
names the cd syntax reserves (two dots, the bare slash, names starting with
a slash) — cd x followed by cd dot-dot restores the working directory. -/
theorem c3_cd_roundtrip (st : EmulatorState) (x : String)
    (hne : st.currentPath ≠ [])
    (hchild : childIsDir st.fs st.currentPath x = true)
    (hx1 : x ≠ "..") (hx2 : x ≠ "/") (hx3 : strStartsWith x "/" = false) :
    (cdCommand (cdCommand st [x]).1 [".."]).1.currentPath = st.currentPath := by
  rw [childIsDir_iff] at hchild
  obtain ⟨r, n, c, hg, hl⟩ := hchild
  have h1 : cdCommand st [x] = ({ st with currentPath := st.currentPath ++ [x] }, "") := by
    simp only [cdCommand]
    rw [if_neg hx1, if_neg hx2, if_neg (by rw [hx3]; exact Bool.false_ne_true)]
    simp only [hg, hl]
  rw [h1, cdCommand_dotdot]
  have hpos : 0 < st.currentPath.length := List.length_pos.mpr hne
  have hlen : (st.currentPath ++ [x]).length > 1 := by
    rw [List.length_append, List.length_singleton]
    exact Nat.succ_lt_succ hpos
  rw [if_pos hlen]
  show (st.currentPath ++ [x]).dropLast = st.currentPath
  exact List.dropLast_concat

/-- Witness for c3_cd_roundtrip at the fresh state and the Documents child. -/
theorem c3_cd_roundtrip_witness :
    (cdCommand (cdCommand initialState ["Documents"]).1 [".."]).1.currentPath
      = initialState.currentPath :=
  c3_cd_roundtrip initialState "Documents" (by decide) (by decide) (by decide)
    (by decide) (by decide)

/-- C4 counterexample: from the reachable state with working directory
[home] (one segment, so length greater than zero), cd dot-dot does not pop —
the source pops only when the length exceeds one — while the claim predicts
a pop to the empty (root) path. -/
theorem c4_counterexample :
    (executeCommand "" initialState "cd ..").1.currentPath = ["home"] ∧
    (executeCommand "" (executeCommand "" initialState "cd ..").1 "cd ..").1.currentPath
      = ["home"] :=
  ⟨by decide, by decide⟩

/-- C4 (amended): cd dot-dot pops one segment exactly when the working
directory holds more than one segment; with one segment or at root it is a
no-op; in every case it returns the empty string, never an error. -/
theorem c4_cd_parent (now : String) (st : EmulatorState) :
    executeCommand now st "cd .." =
      ({ st with currentPath := if st.currentPath.length > 1 then st.currentPath.dropLast else st.currentPath }, "") := by
  have h0 : executeCommand now st "cd .." = cdCommand st [".."] := rfl
  rw [h0, cdCommand_dotdot]
  by_cases h : st.currentPath.length > 1
  · rw [if_pos h, if_pos h]
  · rw [if_neg h, if_neg h]

/-- C5 counterexample: on the fresh state, ls prints the seeded children in
insertion order joined by two spaces — Projects after Videos — while the
claimed format (directories first then files, each group lexicographically
sorted, space-joined) would put Projects before Videos with single spaces.
Both outputs are computed and differ. -/
theorem c5_counterexample :
    (executeCommand "" initialState "ls").2
      = "Documents  Downloads  Pictures  Videos  Projects  readme.txt  script.sh" ∧
    lsSpecOutput homeChildren
      = "Documents Downloads Pictures Projects Videos readme.txt script.sh" ∧
    (executeCommand "" initialState "ls").2 ≠ lsSpecOutput homeChildren :=
  ⟨by decide, by decide, by decide⟩

/-- C5 (amended): for every state whose working directory resolves to a
children record, ls returns the names of its children with all directories
first and then all files, each group in insertion order (not sorted), joined
by two spaces, and the empty string when the record is empty. -/
theorem c5_ls_insertion_order (now : String) (st : EmulatorState) (r : Children)
    (h : getNode st.fs st.currentPath = some (JsVal.record r)) :
    executeCommand now st "ls" =
      (st, if (r.map fun e => e.2).length = 0 then ""
        else joinSep "  "
          (((r.map fun e => e.2).filter isDirNode).map nodeName ++
           ((r.map fun e => e.2).filter isFileNode).map nodeName)) := by
  have h0 : executeCommand now st "ls" = (st, lsCommand st []) := rfl
  rw [h0]
  unfold lsCommand
  simp only [h]

/-- Witness for c5_ls_insertion_order at the fresh state. -/
theorem c5_ls_insertion_order_witness :
    executeCommand "" initialState "ls" =
      (initialState, if (homeChildren.map fun e => e.2).length = 0 then ""
        else joinSep "  "
          (((homeChildren.map fun e => e.2).filter isDirNode).map nodeName ++
           ((homeChildren.map fun e => e.2).filter isFileNode).map nodeName)) :=
  c5_ls_insertion_order "" initialState homeChildren rfl

/-- C6: every call whose output the error taxonomy recognizes (missing
operand, not found, no such directory or not a directory, already exists,
invalid syntax, unknown command) leaves the state — working directory,
environment and tree — exactly as it was: all mutation in the source happens
on calls that return the empty string. -/
theorem c6_errors_leave_state_unchanged (now : String) (st : EmulatorState)
    (input : String)
    (herr : isErrorOutput (executeCommand now st input).2 = true) :
    (executeCommand now st input).1 = st := by
  rcases executeCommand_fst_or_snd now st input with h | h
  · exact h
  · rw [h] at herr
    exact absurd herr (by decide)

/-- Witness for c6_errors_leave_state_unchanged at a failing cd. -/
theorem c6_errors_leave_state_unchanged_witness :
    (executeCommand "" initialState "cd nope").1 = initialState :=
  c6_errors_leave_state_unchanged "" initialState "cd nope" (by decide)

/-- C7 counterexample: the token K="a"b" is well-formed in the sense of the
claim (it has an equals sign, a nonempty key and a nonempty value), yet
export stores the value with every quote character removed (ab), not with
only the surrounding pair stripped (a"b as computed by the spec-side
stripSurroundingQuotes), and env prints the K=ab line accordingly. -/
theorem c7_counterexample :
    envGet (executeCommand "" initialState "export K=\"a\"b\"").1.env "K" = "ab" ∧
    stripSurroundingQuotes "\"a\"b\"" = "a\"b" ∧
    (executeCommand "" (executeCommand "" initialState "export K=\"a\"b\"").1 "env").2
      = "USER=lindroid-user\nHOME=/home/lindroid-user\nPATH=/usr/local/bin:/usr/bin:/bin\nSHELL=/bin/bash\nK=ab" ∧
    ("ab" : String) ≠ "a\"b" :=
  ⟨by decide, by decide, by decide, by decide⟩

/-- C7 (amended): export splits its token on the equals sign and takes the
first two components as key and value (text after a second equals sign is
discarded); when both are nonempty it assigns the key to the value with
every quote character removed — so the corresponding KEY=VALUE line appears
among the lines env prints — and when the token has no equals sign, an empty
key, or an empty second component, it returns the invalid-syntax error and
mutates nothing. -/
theorem c7_export_assignment (st : EmulatorState) (assignment : String) :
    (exportKey assignment ≠ "" → exportVal assignment ≠ "" →
      exportCommand st [assignment] =
        ({ st with env := envSet st.env (exportKey assignment) (stripQuotes (exportVal assignment)) }, "") ∧
      (exportKey assignment ++ "=" ++ stripQuotes (exportVal assignment)) ∈
        (envSet st.env (exportKey assignment)
          (stripQuotes (exportVal assignment))).map (fun p => p.1 ++ "=" ++ p.2)) ∧
    ((exportKey assignment = "" ∨ exportVal assignment = "") →
      exportCommand st [assignment] = (st, "export: invalid syntax")) := by
  constructor
  · intro hk hv
    constructor
    · simp only [exportCommand]
      rw [if_neg (by push_neg; exact ⟨hk, hv⟩)]
    · exact envSet_line_mem st.env _ _
  · intro h
    simp only [exportCommand]
    rw [if_pos h]

/-- Witness for c7_export_assignment at the quoted token of the C7
counterexample. -/
theorem c7_export_assignment_witness :
    exportCommand initialState ["K=\"a\"b\""] =
      ({ initialState with env := envSet initialState.env (exportKey "K=\"a\"b\"") (stripQuotes (exportVal "K=\"a\"b\"")) }, "") ∧
    (exportKey "K=\"a\"b\"" ++ "=" ++ stripQuotes (exportVal "K=\"a\"b\"")) ∈
      (envSet initialState.env (exportKey "K=\"a\"b\"")
        (stripQuotes (exportVal "K=\"a\"b\""))).map (fun p => p.1 ++ "=" ++ p.2) :=
  (c7_export_assignment initialState "K=\"a\"b\"").1 (by decide) (by decide)

/-- C8 counterexample: touch can error in a reachable state — after cd
dot-dot, rm lindroid-user, cd, the working directory no longer resolves and
touch x returns the cannot-create error instead of the empty string. -/
theorem c8_counterexample :
    (executeCommand "" (runCommands "" initialState ["cd ..", "rm lindroid-user", "cd"])
      "touch x").2 = "touch: cannot create file" := by
  decide

/-- C8 (amended): for every state whose working directory resolves to a
children record, touch returns the empty string, is idempotent (a second
identical call returns the empty string and changes nothing), and when a
node of the given name already exists — File or Directory — the whole state,
content and children included, is left exactly as it was. -/
theorem c8_touch_idempotent (st : EmulatorState) (f : String) (r : Children)
    (h : getNode st.fs st.currentPath = some (JsVal.record r)) :
    (touchCommand st [f]).2 = "" ∧
    touchCommand (touchCommand st [f]).1 [f] = ((touchCommand st [f]).1, "") ∧
    ((lookupChild r f).isSome = true → touchCommand st [f] = (st, "")) := by
  cases hl : lookupChild r f with
  | some nd =>
    have h1 : touchCommand st [f] = (st, "") := by
      simp only [touchCommand, h, hl]
    refine ⟨by rw [h1], ?_, fun _ => h1⟩
    rw [h1]
    show touchCommand st [f] = (st, "")
    exact h1
  | none =>
    have h1 : touchCommand st [f] =
        ({ st with fs := updateChildren st.currentPath (fun cs => cs ++ [(f, FSNode.file f "")]) st.fs }, "") := by
      simp only [touchCommand, h, hl]
    have hg2 : getNode (touchCommand st [f]).1.fs (touchCommand st [f]).1.currentPath
        = some (JsVal.record (r ++ [(f, FSNode.file f "")])) := by
      rw [h1]
      exact getNode_updateChildren st.currentPath st.fs r _ h
    have hl2 : lookupChild (r ++ [(f, FSNode.file f "")]) f = some (FSNode.file f "") :=
      lookupChild_append_none r f _ hl
    have hsecond : ∀ st' : EmulatorState,
        getNode st'.fs st'.currentPath
          = some (JsVal.record (r ++ [(f, FSNode.file f "")])) →
        touchCommand st' [f] = (st', "") := by
      intro st' hgg
      simp only [touchCommand, hgg, hl2]
    refine ⟨by rw [h1], hsecond _ hg2, ?_⟩
    intro hs
    exact absurd hs (by decide)

/-- Witness for c8_touch_idempotent at the fresh state and the existing
readme.txt file, with the existing-node clause discharged. -/
theorem c8_touch_idempotent_witness :
    (touchCommand initialState ["readme.txt"]).2 = "" ∧
    touchCommand (touchCommand initialState ["readme.txt"]).1 ["readme.txt"]
      = ((touchCommand initialState ["readme.txt"]).1, "") ∧
    touchCommand initialState ["readme.txt"] = (initialState, "") := by
  have h := c8_touch_idempotent initialState "readme.txt" homeChildren rfl
  exact ⟨h.1, h.2.1, h.2.2 (by decide)⟩

/-- C9: executeCommand depends on its input only through the lowercased
first whitespace token and the remaining tokens (case-insensitive dispatch
over trimmed, whitespace-collapsed tokenization); input consisting only of
whitespace yields the empty output and the unchanged state; and the echo
scenario with irregular spacing prints the single-space join of its
arguments. -/
theorem c9_tokenization (now : String) (st : EmulatorState) (i1 i2 : String)
    (hcmd : lowerStr ((tokenize i1).headD "") = lowerStr ((tokenize i2).headD ""))
    (hargs : (tokenize i1).tail = (tokenize i2).tail) :
    executeCommand now st i1 = executeCommand now st i2 ∧
    (i1.data.all isWsChar = true → executeCommand now st i1 = (st, "")) ∧
    executeCommand now initialState "echo   a   b" = (initialState, "a b") := by
  refine ⟨?_, ?_, rfl⟩
  · unfold executeCommand
    rw [hcmd, hargs]
  · intro h
    unfold executeCommand tokenize
    rw [splitWsAux_all_ws i1.data h]
    rfl

/-- Witness for c9_tokenization: uppercase ECHO dispatches as echo, and the
irregular-spacing echo scenario holds. -/
theorem c9_tokenization_witness :
    executeCommand "" initialState "ECHO test" = executeCommand "" initialState "echo test" ∧
    executeCommand "" initialState "echo   a   b" = (initialState, "a b") := by
  have h := c9_tokenization "" initialState "ECHO test" "echo test" (by decide) (by decide)
  exact ⟨h.1, h.2.2⟩

/-- C10: export with no arguments is not an error — it prints every current
environment variable as an export KEY="VALUE" line, newline-joined, and
leaves the whole state (environment, working directory and tree) unchanged. -/
theorem c10_export_no_args (now : String) (st : EmulatorState) :
    executeCommand now st "export" =
      (st, joinSep "\n" (st.env.map fun p => "export " ++ p.1 ++ "=\"" ++ p.2 ++ "\"")) :=
  rfl

end Lindroid
